import Mathlib

/-!
Shallow embedding of the Orange-Health `pubsublib-python` adapter layer.

The repository contains two adapter variants with behavioural drift:
`src/pubsublib/aws/main.py` (namespace `Pubsublib` below) and
`src/pubsublib_python_orangehealth/aws/main.py` (namespace `OrangeHealth`),
plus the pure codec `src/pubsublib/common/codec.py`.

External effects (the SNS/SQS transport, the Redis cache, the logger) are
modelled by an explicit event trace: each embedded operation returns the list
of calls it makes together with its outcome (normal return or raised
exception).  Transport responses and the freshly generated `uuid4` key are
inputs of the embedding, since they come from outside the program.

The helper module `src/pubsublib/aws/utils/helper.py` (`is_large_message`,
`validate_message_attributes`, `bind_attributes`,
`is_message_integrity_verified`) is imported by the adapters but is not part
of the sources; those four functions are modelled from the spec, as marked on
each definition.
-/

set_option autoImplicit false

/-- A Python attribute value: the type model distinguishes strings, binary
values, and any other Python object (which the spec's validator rejects). -/
inductive AttrValue where
  | str (s : String)
  | bin (b : List Nat)
  | other (tag : String)
  deriving Repr, DecidableEq

/-- The transport's typed-attribute wire representation (type tag + value). -/
inductive WireAttr where
  | stringValue (v : String)
  | binaryValue (v : List Nat)
  deriving Repr, DecidableEq

/-- A `botocore` `ClientError`, identified by its error code/message. -/
structure ClientError where
  code : String
  deriving Repr, DecidableEq

/-- Python dict update `d[k] = v` on an association list: replaces the value
of an existing key in place, otherwise appends the new entry. -/
def dictSet (d : List (String × AttrValue)) (k : String) (v : AttrValue) :
    List (String × AttrValue) :=
  if d.any (fun p => p.1 == k) then
    d.map (fun p => if p.1 == k then (k, v) else p)
  else
    d ++ [(k, v)]

/-- Modelled from the spec: `isLarge(body) -> bool` is "true when serialized
body size exceeds 200 KB".  The helper module holding `is_large_message` is
not among the sources; the message body is represented by its serialized
byte sequence. -/
def is_large_message (message : List Nat) : Bool :=
  200 * 1024 < message.length

/-- Modelled from the spec: `validate(attributes) -> bool` "fails (returns
false ...) if any value's type is not string or binary".  The helper module
holding `validate_message_attributes` is not among the sources. -/
def validate_message_attributes (attributes : List (String × AttrValue)) : Bool :=
  attributes.all fun p =>
    match p.2 with
    | AttrValue.str _ => true
    | AttrValue.bin _ => true
    | AttrValue.other _ => false

/-- Modelled from the spec: `bind(attributes)` "transforms each entry into the
transport's typed-attribute wire representation (type tag + value)".  The
helper module holding `bind_attributes` is not among the sources.  It is only
ever called on validated mappings; a non-string non-binary value has no wire
form and is mapped to an empty string value. -/
def bind_attributes (attributes : List (String × AttrValue)) :
    List (String × WireAttr) :=
  attributes.map fun p =>
    (p.1,
      match p.2 with
      | AttrValue.str s => WireAttr.stringValue s
      | AttrValue.bin b => WireAttr.binaryValue b
      | AttrValue.other _ => WireAttr.stringValue "")

/-- Modelled from the spec: the Message Integrity Verifier "recomputes a
checksum over a received body and compares to the transport-supplied
checksum".  The helper module holding `is_message_integrity_verified` is not
among the sources; the checksum function (MD5 there) is a parameter. -/
def is_message_integrity_verified (md5fn : String → String)
    (body md5OfBody : String) : Bool :=
  md5fn body == md5OfBody

/-- One call made by a publish operation, in program order. -/
inductive PubEvent where
  | cacheSet (key : String) (value : List Nat) (ttlMinutes : Nat)
  | validateCall (attributes : List (String × AttrValue))
  | bindCall (attributes : List (String × AttrValue))
  | snsPublish (topicArn : String) (message : List Nat)
      (groupId dedupId : Option String) (wireAttrs : List (String × WireAttr))
  | logException (context : String)
  deriving Repr, DecidableEq

/-- How a publish call ends: a normal return (the message id, or `None`), a
raised `UnboundLocalError` on the named local variable, or a re-raised
`ClientError` (no publish path of either variant actually re-raises one, but
the outcome type can express it). -/
inductive PubOutcome where
  | returned (id : Option String)
  | unboundLocal (var : String)
  | raisedClientError (e : ClientError)
  deriving Repr, DecidableEq

/-- The offload block shared by every publish path
(`if is_large_message(message): ... attributes["redis_key"] = redis_key ...`):
the attribute mapping it leaves behind.  `fresh_key` is the `uuid.uuid4()`
value, injected under the reserved key `redis_key`. -/
def offload_attributes (fresh_key : String) (message : List Nat)
    (attributes : List (String × AttrValue)) : List (String × AttrValue) :=
  if is_large_message message then
    dictSet attributes "redis_key" (AttrValue.str fresh_key)
  else
    attributes

/-- The calls made by the offload block: `cache_adapter.set(redis_key,
message, 10*24*60)` when the body is large, nothing otherwise. -/
def offload_events (fresh_key : String) (message : List Nat) : List PubEvent :=
  if is_large_message message then
    [PubEvent.cacheSet fresh_key message (10 * 24 * 60)]
  else
    []

namespace Pubsublib

/-- Embedding of `__publish_message_standard_queue`
(src/pubsublib/aws/main.py, lines 114-151).  `fresh_key` is the `uuid4()`
result, `snsResult` the transport's response to `sns_client.publish`.  When
validation fails, `message_id` is never assigned and the trailing
`return message_id` raises `UnboundLocalError`; a `ClientError` from the
transport is logged and swallowed into a `return None`. -/
def publish_message_standard_queue (fresh_key : String)
    (snsResult : Except ClientError String) (topic_arn : String)
    (message : List Nat) (attributes : List (String × AttrValue)) :
    List PubEvent × PubOutcome :=
  let attributes2 := offload_attributes fresh_key message attributes
  let evs0 := offload_events fresh_key message ++ [PubEvent.validateCall attributes2]
  if validate_message_attributes attributes2 then
    let message_attributes := bind_attributes attributes2
    let evs1 := evs0 ++ [PubEvent.bindCall attributes2,
      PubEvent.snsPublish topic_arn message none none message_attributes]
    match snsResult with
    | Except.ok messageId => (evs1, PubOutcome.returned (some messageId))
    | Except.error _ =>
        (evs1 ++ [PubEvent.logException topic_arn], PubOutcome.returned none)
  else
    (evs0, PubOutcome.unboundLocal "message_id")

/-- Embedding of `__publish_message_fifo_queue`
(src/pubsublib/aws/main.py, lines 153-195).  Identical to the standard path
except that the group id and deduplication id are passed through to the
transport; on `ClientError` the handler logs and falls off the function,
implicitly returning `None`. -/
def publish_message_fifo_queue (fresh_key : String)
    (snsResult : Except ClientError String) (topic_arn : String)
    (message : List Nat) (message_group_id message_deduplication_id : Option String)
    (attributes : List (String × AttrValue)) : List PubEvent × PubOutcome :=
  let attributes2 := offload_attributes fresh_key message attributes
  let evs0 := offload_events fresh_key message ++ [PubEvent.validateCall attributes2]
  if validate_message_attributes attributes2 then
    let message_attributes := bind_attributes attributes2
    let evs1 := evs0 ++ [PubEvent.bindCall attributes2,
      PubEvent.snsPublish topic_arn message message_group_id
        message_deduplication_id message_attributes]
    match snsResult with
    | Except.ok messageId => (evs1, PubOutcome.returned (some messageId))
    | Except.error _ =>
        (evs1 ++ [PubEvent.logException topic_arn], PubOutcome.returned none)
  else
    (evs0, PubOutcome.unboundLocal "message_id")

/-- Embedding of `publish_message` (src/pubsublib/aws/main.py, lines 79-112):
dispatches on `is_fifo` to the FIFO or the standard path. -/
def publish_message (fresh_key : String) (snsResult : Except ClientError String)
    (topic_arn : String) (message : List Nat)
    (attributes : List (String × AttrValue)) ( is_fifo : Bool)
    (message_group_id message_deduplication_id : Option String) :
    List PubEvent × PubOutcome :=
  if is_fifo then
    publish_message_fifo_queue fresh_key snsResult topic_arn message
      message_group_id message_deduplication_id attributes
  else
    publish_message_standard_queue fresh_key snsResult topic_arn message attributes

end Pubsublib

/-- A message as returned by `sqs_client.receive_message`. -/
structure SqsMessage where
  messageId : String
  receiptHandle : String
  body : String
  md5OfBody : String
  deriving Repr, DecidableEq

/-- One call made by a poll operation, in program order. -/
inductive PollEvent where
  | handlerCall (m : SqsMessage)
  | deleteCall (queueUrl : String) (receiptHandle : String)
  | logException (context : String)
  deriving Repr, DecidableEq

/-- An exception escaping the consumer loop body: the integrity
`ValueError`, or a `ClientError` from `delete_message`. -/
inductive PollError where
  | valueError (msg : String)
  | clientError (e : ClientError)
  deriving Repr, DecidableEq

/-- How `Pubsublib.poll_message_from_queue` ends: normal return of the receive
response (`none` models a response without a `Messages` key), a propagated
`ValueError` from the integrity check, or a logged and re-raised
`ClientError`. -/
inductive PollOutcome where
  | returned (received : Option (List SqsMessage))
  | raisedValueError (msg : String)
  | raisedClientError (e : ClientError)
  deriving Repr, DecidableEq

namespace Pubsublib

/-- Embedding of the `for message in recieved_message['Messages']` loop of
`poll_message_from_queue` (src/pubsublib/aws/main.py, lines 289-298): check
integrity, call the handler, and delete on truthy handler result.
`deleteRes rh` is the transport's response to `delete_message` for receipt
handle `rh` (`none` = success).  Returns the calls made and the exception
that escaped the loop, if any. -/
def poll_loop (md5fn : String → String) (handler : SqsMessage → Bool)
    (deleteRes : String → Option ClientError) (queueUrl : String) :
    List SqsMessage → List PollEvent × Option PollError
  | [] => ([], none)
  | m :: rest =>
    if is_message_integrity_verified md5fn m.body m.md5OfBody then
      if handler m then
        match deleteRes m.receiptHandle with
        | some e =>
            ([PollEvent.handlerCall m, PollEvent.deleteCall queueUrl m.receiptHandle],
             some (PollError.clientError e))
        | none =>
            let r := poll_loop md5fn handler deleteRes queueUrl rest
            ([PollEvent.handlerCall m, PollEvent.deleteCall queueUrl m.receiptHandle]
               ++ r.1, r.2)
      else
        let r := poll_loop md5fn handler deleteRes queueUrl rest
        (PollEvent.handlerCall m :: r.1, r.2)
    else
      ([], some (PollError.valueError
        "message corrupted, Message integrity verification failed!"))

/-- Embedding of `poll_message_from_queue` (src/pubsublib/aws/main.py, lines
254-305).  `receiveRes` is the transport's response to `receive_message`:
a raised `ClientError`, a response without a `Messages` key (`none`), or a
message list.  The whole body is inside `try/except ClientError`, which logs
with the queue URL and re-raises; the integrity `ValueError` is not caught
and propagates unlogged. -/
def poll_message_from_queue (md5fn : String → String)
    (receiveRes : Except ClientError (Option (List SqsMessage)))
    (handler : SqsMessage → Bool) (deleteRes : String → Option ClientError)
    (sqs_queue_url : String) : List PollEvent × PollOutcome :=
  match receiveRes with
  | Except.error e =>
      ([PollEvent.logException sqs_queue_url], PollOutcome.raisedClientError e)
  | Except.ok none => ([], PollOutcome.returned none)
  | Except.ok (some msgs) =>
    match poll_loop md5fn handler deleteRes sqs_queue_url msgs with
    | (evs, none) => (evs, PollOutcome.returned (some msgs))
    | (evs, some (PollError.valueError s)) => (evs, PollOutcome.raisedValueError s)
    | (evs, some (PollError.clientError e)) =>
        (evs ++ [PollEvent.logException sqs_queue_url],
         PollOutcome.raisedClientError e)

end Pubsublib

namespace OrangeHealth

/-- Embedding of `publish_message`
(src/pubsublib_python_orangehealth/aws/main.py, lines 81-118).  After the
optional offload block, the guard `if validate_message_attributes(message_attributes):`
reads the local variable `message_attributes` before its only assignment, so
every call raises `UnboundLocalError` there; the validator is never invoked
and the rest of the function is unreachable (`UnboundLocalError` is not a
`ClientError`, so the `except` clause does not catch it). -/
def publish_message (fresh_key : String) (topic_arn : String)
    (message : List Nat) (attributes : List (String × AttrValue)) :
    List PubEvent × PubOutcome :=
  (offload_events fresh_key message, PubOutcome.unboundLocal "message_attributes")

/-- Embedding of `publish_message_fifo`
(src/pubsublib_python_orangehealth/aws/main.py, lines 120-162): same unbound
`message_attributes` read as `publish_message`, so every call raises
`UnboundLocalError` after the optional offload block. -/
def publish_message_fifo (fresh_key : String) (topic_arn : String)
    (message : List Nat) (message_group_id message_deduplication_id : Option String)
    (attributes : List (String × AttrValue)) : List PubEvent × PubOutcome :=
  (offload_events fresh_key message, PubOutcome.unboundLocal "message_attributes")

/-- How `OrangeHealth.poll_message_from_queue` ends: it returns the loop
variable `message` (the last received message), raises `UnboundLocalError`
on `return message` when the loop never ran, or propagates a `ClientError`
uncaught (this variant has no `try/except`). -/
inductive OhPollOutcome where
  | returnedLast (m : SqsMessage)
  | unboundLocal (var : String)
  | raisedClientError (e : ClientError)
  deriving Repr, DecidableEq

/-- Embedding of the message loop of `poll_message_from_queue`
(src/pubsublib_python_orangehealth/aws/main.py, lines 240-246): no integrity
check; every message goes to the handler, and a truthy handler result
triggers `delete_message`. -/
def poll_loop (handler : SqsMessage → Bool)
    (deleteRes : String → Option ClientError) (queueUrl : String) :
    List SqsMessage → List PollEvent × Option ClientError
  | [] => ([], none)
  | m :: rest =>
    if handler m then
      match deleteRes m.receiptHandle with
      | some e =>
          ([PollEvent.handlerCall m, PollEvent.deleteCall queueUrl m.receiptHandle],
           some e)
      | none =>
          let r := poll_loop handler deleteRes queueUrl rest
          ([PollEvent.handlerCall m, PollEvent.deleteCall queueUrl m.receiptHandle]
             ++ r.1, r.2)
    else
      let r := poll_loop handler deleteRes queueUrl rest
      (PollEvent.handlerCall m :: r.1, r.2)

/-- Embedding of `poll_message_from_queue`
(src/pubsublib_python_orangehealth/aws/main.py, lines 205-250).  There is no
`try/except`, so transport errors propagate uncaught and unlogged.  The final
`return message` returns the loop variable: the last message when the loop
ran, and raises `UnboundLocalError` on `message` when the receive response
had no `Messages` key or an empty list. -/
def poll_message_from_queue
    (receiveRes : Except ClientError (Option (List SqsMessage)))
    (handler : SqsMessage → Bool) (deleteRes : String → Option ClientError)
    (sqs_queue_url : String) : List PollEvent × OhPollOutcome :=
  match receiveRes with
  | Except.error e => ([], OhPollOutcome.raisedClientError e)
  | Except.ok none => ([], OhPollOutcome.unboundLocal "message")
  | Except.ok (some msgs) =>
    match poll_loop handler deleteRes sqs_queue_url msgs with
    | (evs, some e) => (evs, OhPollOutcome.raisedClientError e)
    | (evs, none) =>
      match msgs.getLast? with
      | some m => (evs, OhPollOutcome.returnedLast m)
      | none => (evs, OhPollOutcome.unboundLocal "message")

end OrangeHealth

/-- Index of a character in the standard base64 alphabet, `none` for a
non-alphabet character.  Models the alphabet used by the Python stdlib
`base64.b64decode` that `codec.py` wraps. -/
def b64_index (c : Char) : Option Nat :=
  if 'A' ≤ c ∧ c ≤ 'Z' then some (c.toNat - 'A'.toNat)
  else if 'a' ≤ c ∧ c ≤ 'z' then some (c.toNat - 'a'.toNat + 26)
  else if '0' ≤ c ∧ c ≤ '9' then some (c.toNat - '0'.toNat + 52)
  else if c = '+' then some 62
  else if c = '/' then some 63
  else none

/-- Decode base64 characters four at a time into bytes, honouring `=`
padding; `none` models the `binascii.Error` the stdlib raises on incorrect
padding.  Models the core of the Python stdlib `base64.b64decode`. -/
def b64_chunks : List Char → Option (List Nat)
  | [] => some []
  | c1 :: c2 :: c3 :: c4 :: rest => do
    let i1 ← b64_index c1
    let i2 ← b64_index c2
    if c3 = '=' then
      if c4 = '=' ∧ rest = [] then some [i1 * 4 + i2 / 16] else none
    else do
      let i3 ← b64_index c3
      if c4 = '=' then
        if rest = [] then
          some [i1 * 4 + i2 / 16, (i2 % 16) * 16 + i3 / 4]
        else none
      else do
        let i4 ← b64_index c4
        let tail ← b64_chunks rest
        some ([i1 * 4 + i2 / 16, (i2 % 16) * 16 + i3 / 4, (i3 % 4) * 64 + i4] ++ tail)
  | _ => none

/-- Embedding of `b64_decode` (src/pubsublib/common/codec.py, lines 25-27),
which wraps the Python stdlib `base64.b64decode(s)`: with its default
`validate=False`, characters outside the alphabet and padding are discarded
before decoding; bad padding raises (`none`). -/
def b64_decode (s : String) : Option (List Nat) :=
  b64_chunks (s.data.filter (fun c => (b64_index c).isSome || c = '='))

/-- Embedding of `b64_decode_and_gunzip_if` (src/pubsublib/common/codec.py,
lines 36-41): base64 decode, then gunzip only when `compressed` is true.
The gzip decompressor (`gzip_decompress`, a wrapper over the Python stdlib
`gzip` module) is a parameter of the embedding. -/
def b64_decode_and_gunzip_if (gzip_decompress : List Nat → Option (List Nat))
    (b64s : String) (compressed : Bool) : Option (List Nat) :=
  match b64_decode b64s with
  | none => none
  | some decoded => if compressed then gzip_decompress decoded else some decoded

/-- Whether a publish event is a cache `set` call. -/
def isCacheSetEvent : PubEvent → Bool
  | PubEvent.cacheSet _ _ _ => true
  | _ => false

/-- Whether a publish event, if it is a transport dispatch, carries the given
inline body. -/
def snsBodyIs (message : List Nat) : PubEvent → Bool
  | PubEvent.snsPublish _ m _ _ _ => m == message
  | _ => true

theorem dictSet_mem_self (d : List (String × AttrValue)) (k : String)
    (v : AttrValue) : (k, v) ∈ dictSet d k v := by
  unfold dictSet
  split
  · next h =>
    rw [List.any_eq_true] at h
    obtain ⟨p, hp, hpk⟩ := h
    refine List.mem_map.mpr ⟨p, hp, ?_⟩
    simp [hpk]
  · exact List.mem_append_right _ (List.mem_singleton.mpr rfl)

theorem publish_standard_filter_cacheSet (fresh_key : String)
    (snsResult : Except ClientError String) (topic_arn : String)
    (message : List Nat) (attributes : List (String × AttrValue)) :
    (Pubsublib.publish_message_standard_queue fresh_key snsResult topic_arn
        message attributes).1.filter isCacheSetEvent
      = offload_events fresh_key message := by
  unfold Pubsublib.publish_message_standard_queue
  by_cases hv : validate_message_attributes
      (offload_attributes fresh_key message attributes) = true
  · cases snsResult <;>
      simp [hv, isCacheSetEvent, List.filter_append, offload_events]
  · simp [hv, isCacheSetEvent, List.filter_append, offload_events]

theorem publish_fifo_filter_cacheSet (fresh_key : String)
    (snsResult : Except ClientError String) (topic_arn : String)
    (message : List Nat) (gid did : Option String)
    (attributes : List (String × AttrValue)) :
    (Pubsublib.publish_message_fifo_queue fresh_key snsResult topic_arn
        message gid did attributes).1.filter isCacheSetEvent
      = offload_events fresh_key message := by
  unfold Pubsublib.publish_message_fifo_queue
  by_cases hv : validate_message_attributes
      (offload_attributes fresh_key message attributes) = true
  · cases snsResult <;>
      simp [hv, isCacheSetEvent, List.filter_append, offload_events]
  · simp [hv, isCacheSetEvent, List.filter_append, offload_events]

theorem publish_message_filter_cacheSet (fresh_key : String)
    (snsResult : Except ClientError String) (topic_arn : String)
    (message : List Nat) (attributes : List (String × AttrValue))
    ( is_fifo : Bool) (gid did : Option String) :
    (Pubsublib.publish_message fresh_key snsResult topic_arn message attributes
        is_fifo gid did).1.filter isCacheSetEvent
      = offload_events fresh_key message := by
  unfold Pubsublib.publish_message
  cases is_fifo <;>
    simp [publish_standard_filter_cacheSet, publish_fifo_filter_cacheSet]

theorem publish_message_validate_mem (fresh_key : String)
    (snsResult : Except ClientError String) (topic_arn : String)
    (message : List Nat) (attributes : List (String × AttrValue))
    ( is_fifo : Bool) (gid did : Option String) :
    PubEvent.validateCall (offload_attributes fresh_key message attributes)
      ∈ (Pubsublib.publish_message fresh_key snsResult topic_arn message
          attributes is_fifo gid did).1 := by
  unfold Pubsublib.publish_message Pubsublib.publish_message_standard_queue
    Pubsublib.publish_message_fifo_queue
  cases is_fifo <;>
    by_cases hv : validate_message_attributes
        (offload_attributes fresh_key message attributes) = true <;>
    cases snsResult <;> simp [hv]

/-- C9: `b64_decode_and_gunzip_if(s, false)` never invokes gzip decompression
(the result does not depend on the decompressor at all) and returns exactly
`b64_decode(s)`, the decoded bytes verbatim. -/
theorem claim_C9_skip_decompression
    (gzip_decompress : List Nat → Option (List Nat)) (b64s : String) :
    b64_decode_and_gunzip_if gzip_decompress b64s false = b64_decode b64s := by
  unfold b64_decode_and_gunzip_if
  cases h : b64_decode b64s <;> simp

/-- C3 counterexample: a FIFO publish with no message group id and no
deduplication id does not fail with a `ConfigurationError`: it dispatches to
the transport (the `snsPublish` call is in the trace, with both ids absent)
and returns the transport's message id normally. -/
theorem claim_C3_counterexample :
    Pubsublib.publish_message "k" (Except.ok "mid123") "t.fifo" [1, 2, 3] []
        true none none
      = ([PubEvent.validateCall [], PubEvent.bindCall [],
          PubEvent.snsPublish "t.fifo" [1, 2, 3] none none []],
         PubOutcome.returned (some "mid123")) := by
  decide

/-- C3 amended: an ordered-mode (FIFO) publish with a missing ordering key or
deduplication id is not rejected: no `ConfigurationError` check exists, the
message is dispatched to the transport with the missing values passed through
as null, and the call returns the transport's message id (or `None` after a
transport error). -/
theorem claim_C3_amended (fresh_key topic_arn : String) (message : List Nat)
    (attributes : List (String × AttrValue)) (gid did : Option String)
    (snsResult : Except ClientError String)
    (hval : validate_message_attributes
      (offload_attributes fresh_key message attributes) = true) :
    PubEvent.snsPublish topic_arn message gid did
        (bind_attributes (offload_attributes fresh_key message attributes))
      ∈ (Pubsublib.publish_message fresh_key snsResult topic_arn message
          attributes true gid did).1 ∧
    (Pubsublib.publish_message fresh_key snsResult topic_arn message attributes
        true gid did).2
      = PubOutcome.returned
          (match snsResult with
           | Except.ok i => some i
           | Except.error _ => none) := by
  unfold Pubsublib.publish_message Pubsublib.publish_message_fifo_queue
  cases snsResult <;> simp [hval]

theorem claim_C3_amended_witness :
    PubEvent.snsPublish "t.fifo" [1, 2, 3] none none
        (bind_attributes (offload_attributes "k" [1, 2, 3] []))
      ∈ (Pubsublib.publish_message "k" (Except.ok "mid123") "t.fifo" [1, 2, 3]
          [] true none none).1 ∧
    (Pubsublib.publish_message "k" (Except.ok "mid123") "t.fifo" [1, 2, 3] []
        true none none).2
      = PubOutcome.returned
          (match Except.ok (ε := ClientError) "mid123" with
           | Except.ok i => some i
           | Except.error _ => none) :=
  claim_C3_amended "k" "t.fifo" [1, 2, 3] [] none none (Except.ok "mid123")
    (by decide)

/-- C7: in the `pubsublib_python_orangehealth` variant, every publish path
raises `UnboundLocalError` at the validation guard, which reads the unbound
local `message_attributes` instead of `attributes`; the validator never runs
and the attributes are never bound.  Evaluated at a concrete publish call on
each path. -/
theorem claim_C7_code_bug :
    OrangeHealth.publish_message "k" "topicA" [1, 2] []
      = ([], PubOutcome.unboundLocal "message_attributes") ∧
    OrangeHealth.publish_message_fifo "k" "topicA" [1, 2] (some "g") (some "d")
        []
      = ([], PubOutcome.unboundLocal "message_attributes") := by
  decide

/-- C8: on an empty receive result, the `pubsublib` variant returns the
receive response normally, but the `pubsublib_python_orangehealth` variant
raises `UnboundLocalError` on `return message`, where the loop variable
`message` was never bound.  Evaluated at a concrete empty poll on each
variant. -/
theorem claim_C8_code_bug :
    Pubsublib.poll_message_from_queue (fun s => s) (Except.ok none)
        (fun _ => true) (fun _ => none) "q"
      = ([], PollOutcome.returned none) ∧
    OrangeHealth.poll_message_from_queue (Except.ok none) (fun _ => true)
        (fun _ => none) "q"
      = ([], OrangeHealth.OhPollOutcome.unboundLocal "message") := by
  decide

theorem poll_loop_no_error (md5fn : String → String) (handler : SqsMessage → Bool)
    (deleteRes : String → Option ClientError) (q : String)
    (msgs : List SqsMessage)
    (hver : ∀ x ∈ msgs, is_message_integrity_verified md5fn x.body x.md5OfBody = true)
    (hdel : ∀ x ∈ msgs, deleteRes x.receiptHandle = none) :
    (Pubsublib.poll_loop md5fn handler deleteRes q msgs).2 = none := by
  induction msgs with
  | nil => rfl
  | cons m rest ih =>
    have hm := hver m (List.mem_cons_self m rest)
    have hdm := hdel m (List.mem_cons_self m rest)
    have ih2 := ih (fun x hx => hver x (List.mem_cons_of_mem m hx))
      (fun x hx => hdel x (List.mem_cons_of_mem m hx))
    by_cases hh : handler m = true
    · simp [Pubsublib.poll_loop, hm, hdm, hh, ih2]
    · simp [Pubsublib.poll_loop, hm, hh, ih2]

theorem poll_loop_append (md5fn : String → String) (handler : SqsMessage → Bool)
    (deleteRes : String → Option ClientError) (q : String)
    (pre rest : List SqsMessage)
    (h : (Pubsublib.poll_loop md5fn handler deleteRes q pre).2 = none) :
    Pubsublib.poll_loop md5fn handler deleteRes q (pre ++ rest)
      = ((Pubsublib.poll_loop md5fn handler deleteRes q pre).1
           ++ (Pubsublib.poll_loop md5fn handler deleteRes q rest).1,
         (Pubsublib.poll_loop md5fn handler deleteRes q rest).2) := by
  induction pre with
  | nil => simp [Pubsublib.poll_loop]
  | cons m pre ih =>
    by_cases hm : is_message_integrity_verified md5fn m.body m.md5OfBody = true
    · by_cases hh : handler m = true
      · cases hd : deleteRes m.receiptHandle with
        | some e =>
          exfalso
          simp [Pubsublib.poll_loop, hm, hh, hd] at h
        | none =>
          have h2 : (Pubsublib.poll_loop md5fn handler deleteRes q pre).2 = none := by
            simpa [Pubsublib.poll_loop, hm, hh, hd] using h
          simp [Pubsublib.poll_loop, hm, hh, hd, ih h2]
      · have h2 : (Pubsublib.poll_loop md5fn handler deleteRes q pre).2 = none := by
          simpa [Pubsublib.poll_loop, hm, hh] using h
        simp [Pubsublib.poll_loop, hm, hh, ih h2]
    · exfalso
      simp [Pubsublib.poll_loop, hm] at h

theorem poll_loop_count_delete (md5fn : String → String)
    (handler : SqsMessage → Bool) (deleteRes : String → Option ClientError)
    (q rh : String) (msgs : List SqsMessage)
    (hver : ∀ x ∈ msgs, is_message_integrity_verified md5fn x.body x.md5OfBody = true)
    (hdel : ∀ x ∈ msgs, deleteRes x.receiptHandle = none) :
    (Pubsublib.poll_loop md5fn handler deleteRes q msgs).1.count
        (PollEvent.deleteCall q rh)
      = (msgs.filter (fun x => x.receiptHandle == rh && handler x)).length := by
  induction msgs with
  | nil => rfl
  | cons m rest ih =>
    have hm := hver m (List.mem_cons_self m rest)
    have hdm := hdel m (List.mem_cons_self m rest)
    have ih2 := ih (fun x hx => hver x (List.mem_cons_of_mem m hx))
      (fun x hx => hdel x (List.mem_cons_of_mem m hx))
    by_cases hh : handler m = true <;> by_cases hrh : m.receiptHandle = rh
    · subst hrh
      simp [Pubsublib.poll_loop, hm, hdm, hh, List.count_cons,
        List.count_append, List.filter_cons, ih2]
    · simp [Pubsublib.poll_loop, hm, hdm, hh, hrh, List.count_cons,
        List.count_append, List.filter_cons, ih2]
    · subst hrh
      simp [Pubsublib.poll_loop, hm, hdm, hh, List.count_cons,
        List.count_append, List.filter_cons, ih2]
    · simp [Pubsublib.poll_loop, hm, hdm, hh, hrh, List.count_cons,
        List.count_append, List.filter_cons, ih2]

theorem filter_receiptHandle_nodup (handler : SqsMessage → Bool)
    (msgs : List SqsMessage)
    (hnodup : (msgs.map SqsMessage.receiptHandle).Nodup)
    (m : SqsMessage) (hm : m ∈ msgs) :
    (msgs.filter
        (fun x => x.receiptHandle == m.receiptHandle && handler x)).length
      = if handler m = true then 1 else 0 := by
  induction msgs with
  | nil => cases hm
  | cons a rest ih =>
    rw [List.map_cons, List.nodup_cons] at hnodup
    obtain ⟨hna, hnrest⟩ := hnodup
    rcases List.mem_cons.mp hm with hma | hmr
    · subst hma
      have hfe : rest.filter
          (fun x => x.receiptHandle == m.receiptHandle && handler x) = [] := by
        rw [List.filter_eq_nil_iff]
        intro x hx
        have hne : x.receiptHandle ≠ m.receiptHandle := by
          intro hcontra
          exact hna (hcontra ▸ List.mem_map_of_mem SqsMessage.receiptHandle hx)
        simp [hne]
      by_cases hh : handler m = true <;> simp [List.filter_cons, hh, hfe]
    · have hne : a.receiptHandle ≠ m.receiptHandle := by
        intro hcontra
        exact hna (hcontra ▸ List.mem_map_of_mem SqsMessage.receiptHandle hmr)
      simp [List.filter_cons, hne, ih hnrest hmr]

theorem poll_message_from_queue_ok_some (md5fn : String → String)
    (handler : SqsMessage → Bool) (deleteRes : String → Option ClientError)
    (q : String) (msgs : List SqsMessage) :
    Pubsublib.poll_message_from_queue md5fn (Except.ok (some msgs)) handler
        deleteRes q
      = match Pubsublib.poll_loop md5fn handler deleteRes q msgs with
        | (evs, none) => (evs, PollOutcome.returned (some msgs))
        | (evs, some (PollError.valueError s)) =>
            (evs, PollOutcome.raisedValueError s)
        | (evs, some (PollError.clientError e)) =>
            (evs ++ [PollEvent.logException q],
             PollOutcome.raisedClientError e) := rfl

theorem oh_poll_message_from_queue_ok_some (handler : SqsMessage → Bool)
    (deleteRes : String → Option ClientError) (q : String)
    (msgs : List SqsMessage) :
    OrangeHealth.poll_message_from_queue (Except.ok (some msgs)) handler
        deleteRes q
      = match OrangeHealth.poll_loop handler deleteRes q msgs with
        | (evs, some e) => (evs, OrangeHealth.OhPollOutcome.raisedClientError e)
        | (evs, none) =>
          match msgs.getLast? with
          | some m => (evs, OrangeHealth.OhPollOutcome.returnedLast m)
          | none => (evs, OrangeHealth.OhPollOutcome.unboundLocal "message")
      := rfl

theorem oh_poll_loop_no_error (handler : SqsMessage → Bool)
    (deleteRes : String → Option ClientError) (q : String)
    (msgs : List SqsMessage)
    (hdel : ∀ x ∈ msgs, deleteRes x.receiptHandle = none) :
    (OrangeHealth.poll_loop handler deleteRes q msgs).2 = none := by
  induction msgs with
  | nil => rfl
  | cons m rest ih =>
    have hdm := hdel m (List.mem_cons_self m rest)
    have ih2 := ih (fun x hx => hdel x (List.mem_cons_of_mem m hx))
    by_cases hh : handler m = true <;>
      simp [OrangeHealth.poll_loop, hdm, hh, ih2]

theorem oh_poll_loop_count_delete (handler : SqsMessage → Bool)
    (deleteRes : String → Option ClientError) (q rh : String)
    (msgs : List SqsMessage)
    (hdel : ∀ x ∈ msgs, deleteRes x.receiptHandle = none) :
    (OrangeHealth.poll_loop handler deleteRes q msgs).1.count
        (PollEvent.deleteCall q rh)
      = (msgs.filter (fun x => x.receiptHandle == rh && handler x)).length := by
  induction msgs with
  | nil => rfl
  | cons m rest ih =>
    have hdm := hdel m (List.mem_cons_self m rest)
    have ih2 := ih (fun x hx => hdel x (List.mem_cons_of_mem m hx))
    by_cases hh : handler m = true <;> by_cases hrh : m.receiptHandle = rh
    · subst hrh
      simp [OrangeHealth.poll_loop, hdm, hh, List.count_cons,
        List.count_append, List.filter_cons, ih2]
    · simp [OrangeHealth.poll_loop, hdm, hh, hrh, List.count_cons,
        List.count_append, List.filter_cons, ih2]
    · subst hrh
      simp [OrangeHealth.poll_loop, hdm, hh, List.count_cons,
        List.filter_cons, ih2]
    · simp [OrangeHealth.poll_loop, hdm, hh, hrh, List.count_cons,
        List.filter_cons, ih2]

theorem oh_poll_events (handler : SqsMessage → Bool)
    (deleteRes : String → Option ClientError) (q : String)
    (msgs : List SqsMessage)
    (hdel : ∀ x ∈ msgs, deleteRes x.receiptHandle = none) :
    (OrangeHealth.poll_message_from_queue (Except.ok (some msgs)) handler
        deleteRes q).1
      = (OrangeHealth.poll_loop handler deleteRes q msgs).1 := by
  have hnone := oh_poll_loop_no_error handler deleteRes q msgs hdel
  rcases hres : OrangeHealth.poll_loop handler deleteRes q msgs with ⟨evs, err⟩
  rw [hres] at hnone
  have herr : err = none := hnone
  subst herr
  rw [oh_poll_message_from_queue_ok_some, hres]
  cases msgs.getLast? <;> rfl

/-- C1: in both consumer loops a message is acknowledged if and only if the
caller-supplied handler signals success for it, with `delete_message` called
exactly once with that message's receipt handle on success and never on
failure (receipt handles distinct and deletions succeeding, as the transport
guarantees).  In the `pubsublib` loop this holds for every received message
when the batch passes the integrity check; the
`pubsublib_python_orangehealth` loop has no integrity check, so it holds for
every received message unconditionally. -/
theorem claim_C1_delete_iff_handler_success (md5fn : String → String)
    (handler : SqsMessage → Bool) (deleteRes : String → Option ClientError)
    (q : String) (msgs : List SqsMessage)
    (hdel : ∀ x ∈ msgs, deleteRes x.receiptHandle = none)
    (hnodup : (msgs.map SqsMessage.receiptHandle).Nodup)
    (m : SqsMessage) (hm : m ∈ msgs) :
    ((∀ x ∈ msgs, is_message_integrity_verified md5fn x.body x.md5OfBody = true) →
      (Pubsublib.poll_message_from_queue md5fn (Except.ok (some msgs)) handler
          deleteRes q).1.count (PollEvent.deleteCall q m.receiptHandle)
        = if handler m = true then 1 else 0) ∧
    ((OrangeHealth.poll_message_from_queue (Except.ok (some msgs)) handler
        deleteRes q).1.count (PollEvent.deleteCall q m.receiptHandle)
      = if handler m = true then 1 else 0) := by
  constructor
  · intro hver
    have hnone := poll_loop_no_error md5fn handler deleteRes q msgs hver hdel
    have hev : (Pubsublib.poll_message_from_queue md5fn (Except.ok (some msgs))
        handler deleteRes q).1
        = (Pubsublib.poll_loop md5fn handler deleteRes q msgs).1 := by
      rcases hres : Pubsublib.poll_loop md5fn handler deleteRes q msgs with ⟨evs, err⟩
      rw [hres] at hnone
      have herr : err = none := hnone
      subst herr
      rw [poll_message_from_queue_ok_some, hres]
    rw [hev,
      poll_loop_count_delete md5fn handler deleteRes q m.receiptHandle msgs hver hdel,
      filter_receiptHandle_nodup handler msgs hnodup m hm]
  · rw [oh_poll_events handler deleteRes q msgs hdel,
      oh_poll_loop_count_delete handler deleteRes q m.receiptHandle msgs hdel,
      filter_receiptHandle_nodup handler msgs hnodup m hm]

theorem claim_C1_witness :
    ((Pubsublib.poll_message_from_queue (fun s => s ++ "!")
        (Except.ok (some [SqsMessage.mk "id1" "rh1" "b" "b!"])) (fun _ => true)
        (fun _ => none) "q").1.count (PollEvent.deleteCall "q" "rh1")
      = if true = true then 1 else 0) ∧
    ((OrangeHealth.poll_message_from_queue
        (Except.ok (some [SqsMessage.mk "id1" "rh1" "b" "b!"])) (fun _ => true)
        (fun _ => none) "q").1.count (PollEvent.deleteCall "q" "rh1")
      = if true = true then 1 else 0) := by
  have h := claim_C1_delete_iff_handler_success (fun s => s ++ "!")
    (fun _ => true) (fun _ => none) "q" [SqsMessage.mk "id1" "rh1" "b" "b!"]
    (fun _ _ => rfl) (by decide) (SqsMessage.mk "id1" "rh1" "b" "b!")
    (by decide)
  exact ⟨h.1 (by decide), h.2⟩

theorem poll_loop_corrupted_not_processed (md5fn : String → String)
    (handler : SqsMessage → Bool) (deleteRes : String → Option ClientError)
    (q : String) (msgs : List SqsMessage)
    (hdel : ∀ x ∈ msgs, deleteRes x.receiptHandle = none)
    (hnodup : (msgs.map SqsMessage.receiptHandle).Nodup)
    (m : SqsMessage) (hm : m ∈ msgs)
    (hbad : is_message_integrity_verified md5fn m.body m.md5OfBody = false) :
    PollEvent.handlerCall m
        ∉ (Pubsublib.poll_loop md5fn handler deleteRes q msgs).1 ∧
    PollEvent.deleteCall q m.receiptHandle
        ∉ (Pubsublib.poll_loop md5fn handler deleteRes q msgs).1 ∧
    (Pubsublib.poll_loop md5fn handler deleteRes q msgs).2
      = some (PollError.valueError
          "message corrupted, Message integrity verification failed!") := by
  induction msgs with
  | nil => cases hm
  | cons a rest ih =>
    rw [List.map_cons, List.nodup_cons] at hnodup
    obtain ⟨hna, hnrest⟩ := hnodup
    have hda := hdel a (List.mem_cons_self a rest)
    by_cases ha : is_message_integrity_verified md5fn a.body a.md5OfBody = true
    · have hne : a ≠ m := by
        intro hcontra
        rw [hcontra, hbad] at ha
        cases ha
      have hmr : m ∈ rest := by
        rcases List.mem_cons.mp hm with h1 | h1
        · exact absurd h1.symm hne
        · exact h1
      have hrh : a.receiptHandle ≠ m.receiptHandle := by
        intro hcontra
        exact hna (hcontra ▸ List.mem_map_of_mem SqsMessage.receiptHandle hmr)
      obtain ⟨ih1, ihd, ihe⟩ :=
        ih (fun x hx => hdel x (List.mem_cons_of_mem a hx)) hnrest hmr
      by_cases hh : handler a = true
      · refine ⟨?_, ?_, ?_⟩ <;>
          simp [Pubsublib.poll_loop, ha, hh, hda, Ne.symm hne, Ne.symm hrh,
            hne, hrh, ih1, ihd, ihe]
      · refine ⟨?_, ?_, ?_⟩ <;>
          simp [Pubsublib.poll_loop, ha, hh, Ne.symm hne, Ne.symm hrh,
            hne, hrh, ih1, ihd, ihe]
    · refine ⟨?_, ?_, ?_⟩ <;> simp [Pubsublib.poll_loop, ha]

/-- C2 amended: in the `pubsublib` consumer loop a message whose recomputed
checksum mismatches fails the poll with the integrity `ValueError`, is never
passed to the handler and is never deleted.  (The duplicated
`pubsublib_python_orangehealth` consumer loop performs no integrity
verification at all, so the claim as stated over both variants is false; see
the counterexample.) -/
theorem claim_C2_amended (md5fn : String → String) (handler : SqsMessage → Bool)
    (deleteRes : String → Option ClientError) (q : String)
    (msgs : List SqsMessage)
    (hdel : ∀ x ∈ msgs, deleteRes x.receiptHandle = none)
    (hnodup : (msgs.map SqsMessage.receiptHandle).Nodup)
    (m : SqsMessage) (hm : m ∈ msgs)
    (hbad : is_message_integrity_verified md5fn m.body m.md5OfBody = false) :
    PollEvent.handlerCall m
        ∉ (Pubsublib.poll_message_from_queue md5fn (Except.ok (some msgs))
            handler deleteRes q).1 ∧
    PollEvent.deleteCall q m.receiptHandle
        ∉ (Pubsublib.poll_message_from_queue md5fn (Except.ok (some msgs))
            handler deleteRes q).1 ∧
    (Pubsublib.poll_message_from_queue md5fn (Except.ok (some msgs)) handler
        deleteRes q).2
      = PollOutcome.raisedValueError
          "message corrupted, Message integrity verification failed!" := by
  obtain ⟨h1, h2, h3⟩ :=
    poll_loop_corrupted_not_processed md5fn handler deleteRes q msgs hdel
      hnodup m hm hbad
  rcases hres : Pubsublib.poll_loop md5fn handler deleteRes q msgs with ⟨evs, err⟩
  rw [hres] at h1 h2 h3
  have herr : err = some (PollError.valueError
      "message corrupted, Message integrity verification failed!") := h3
  subst herr
  have hpoll : Pubsublib.poll_message_from_queue md5fn (Except.ok (some msgs))
      handler deleteRes q
      = (evs, PollOutcome.raisedValueError
          "message corrupted, Message integrity verification failed!") := by
    rw [poll_message_from_queue_ok_some, hres]
  rw [hpoll]
  exact ⟨h1, h2, rfl⟩

theorem claim_C2_amended_witness :
    PollEvent.handlerCall (SqsMessage.mk "i" "r" "b" "nope")
        ∉ (Pubsublib.poll_message_from_queue (fun s => s ++ "!")
            (Except.ok (some [SqsMessage.mk "i" "r" "b" "nope"])) (fun _ => true)
            (fun _ => none) "q").1 ∧
    PollEvent.deleteCall "q" (SqsMessage.mk "i" "r" "b" "nope").receiptHandle
        ∉ (Pubsublib.poll_message_from_queue (fun s => s ++ "!")
            (Except.ok (some [SqsMessage.mk "i" "r" "b" "nope"])) (fun _ => true)
            (fun _ => none) "q").1 ∧
    (Pubsublib.poll_message_from_queue (fun s => s ++ "!")
        (Except.ok (some [SqsMessage.mk "i" "r" "b" "nope"])) (fun _ => true)
        (fun _ => none) "q").2
      = PollOutcome.raisedValueError
          "message corrupted, Message integrity verification failed!" :=
  claim_C2_amended (fun s => s ++ "!") (fun _ => true) (fun _ => none) "q"
    [SqsMessage.mk "i" "r" "b" "nope"] (fun _ _ => rfl) (by decide)
    (SqsMessage.mk "i" "r" "b" "nope") (by decide) (by decide)

/-- C2 counterexample: the claim quantifies over the consumer loops of both
adapter variants, but the `pubsublib_python_orangehealth`
`poll_message_from_queue` performs no integrity verification: on a message
whose recomputed checksum (here under checksum function `fun _ => "right"`)
differs from the transport-supplied one, it still invokes the handler and
deletes the message on handler success. -/
theorem claim_C2_counterexample :
    is_message_integrity_verified (fun _ => "right") "body" "WRONG" = false ∧
    (OrangeHealth.poll_message_from_queue
        (Except.ok (some [SqsMessage.mk "id1" "rh1" "body" "WRONG"]))
        (fun _ => true) (fun _ => none) "q").1
      = [PollEvent.handlerCall (SqsMessage.mk "id1" "rh1" "body" "WRONG"),
         PollEvent.deleteCall "q" "rh1"] := by
  decide

/-- C10: in the `pubsublib` consumer loop, when the messages before a
corrupted one all pass integrity (and their deletions succeed), the poll
raises the integrity `ValueError` at the corrupted message and its event
trace is exactly the trace of processing the earlier prefix: deletions
already performed for earlier messages stand, and neither the corrupted
message nor any later one is passed to the handler or deleted. -/
theorem claim_C10_batch_stops_at_corrupted (md5fn : String → String)
    (handler : SqsMessage → Bool) (deleteRes : String → Option ClientError)
    (q : String) (pre : List SqsMessage) (m : SqsMessage)
    (post : List SqsMessage)
    (hpre : ∀ x ∈ pre, is_message_integrity_verified md5fn x.body x.md5OfBody = true)
    (hdel : ∀ x ∈ pre, deleteRes x.receiptHandle = none)
    (hbad : is_message_integrity_verified md5fn m.body m.md5OfBody = false) :
    Pubsublib.poll_message_from_queue md5fn (Except.ok (some (pre ++ m :: post)))
        handler deleteRes q
      = ((Pubsublib.poll_loop md5fn handler deleteRes q pre).1,
         PollOutcome.raisedValueError
           "message corrupted, Message integrity verification failed!") := by
  have hnone := poll_loop_no_error md5fn handler deleteRes q pre hpre hdel
  have happ := poll_loop_append md5fn handler deleteRes q pre (m :: post) hnone
  have hstop : Pubsublib.poll_loop md5fn handler deleteRes q (m :: post)
      = ([], some (PollError.valueError
          "message corrupted, Message integrity verification failed!")) := by
    simp [Pubsublib.poll_loop, hbad]
  rw [hstop] at happ
  rw [poll_message_from_queue_ok_some, happ]
  simp

theorem claim_C10_witness :
    Pubsublib.poll_message_from_queue (fun s => s ++ "!")
        (Except.ok (some ([SqsMessage.mk "i1" "r1" "b1" "b1!"]
           ++ SqsMessage.mk "i2" "r2" "b2" "nope" :: [])))
        (fun _ => true) (fun _ => none) "q"
      = ((Pubsublib.poll_loop (fun s => s ++ "!") (fun _ => true) (fun _ => none)
            "q" [SqsMessage.mk "i1" "r1" "b1" "b1!"]).1,
         PollOutcome.raisedValueError
           "message corrupted, Message integrity verification failed!") :=
  claim_C10_batch_stops_at_corrupted (fun s => s ++ "!") (fun _ => true)
    (fun _ => none) "q" [SqsMessage.mk "i1" "r1" "b1" "b1!"]
    (SqsMessage.mk "i2" "r2" "b2" "nope") [] (by decide) (fun _ _ => rfl)
    (by decide)

/-- C4 counterexample: a `ClientError` raised by the transport during a
standard publish is not re-raised: the publish logs it and swallows it into
a normal `None` return. -/
theorem claim_C4_counterexample :
    Pubsublib.publish_message "k" (Except.error (ClientError.mk "boom"))
        "topicA" [1] [] false none none
      = ([PubEvent.validateCall [], PubEvent.bindCall [],
          PubEvent.snsPublish "topicA" [1] none none [],
          PubEvent.logException "topicA"], PubOutcome.returned none) := by
  decide

/-- C4 amended: in the `pubsublib` variant, a `ClientError` raised during a
poll — by the receive call or by a delete — is logged with the queue URL and
re-raised to the caller; a `ClientError` raised during a publish (standard or
FIFO path) is logged with the topic ARN but swallowed into a normal `None`
return rather than re-raised. -/
theorem claim_C4_amended :
    (∀ (md5fn : String → String) (handler : SqsMessage → Bool)
        (deleteRes : String → Option ClientError) (q : String) (e : ClientError),
      Pubsublib.poll_message_from_queue md5fn (Except.error e) handler deleteRes q
        = ([PollEvent.logException q], PollOutcome.raisedClientError e)) ∧
    (∀ (md5fn : String → String) (handler : SqsMessage → Bool)
        (deleteRes : String → Option ClientError) (q : String)
        (pre : List SqsMessage) (m : SqsMessage) (post : List SqsMessage)
        (e : ClientError),
      (∀ x ∈ pre, is_message_integrity_verified md5fn x.body x.md5OfBody = true) →
      (∀ x ∈ pre, deleteRes x.receiptHandle = none) →
      is_message_integrity_verified md5fn m.body m.md5OfBody = true →
      handler m = true →
      deleteRes m.receiptHandle = some e →
      Pubsublib.poll_message_from_queue md5fn
          (Except.ok (some (pre ++ m :: post))) handler deleteRes q
        = ((Pubsublib.poll_loop md5fn handler deleteRes q pre).1
             ++ [PollEvent.handlerCall m,
                 PollEvent.deleteCall q m.receiptHandle,
                 PollEvent.logException q],
           PollOutcome.raisedClientError e)) ∧
    (∀ (fresh_key topic_arn : String) (message : List Nat)
        (attributes : List (String × AttrValue)) (e : ClientError),
      validate_message_attributes
          (offload_attributes fresh_key message attributes) = true →
      (Pubsublib.publish_message_standard_queue fresh_key (Except.error e)
           topic_arn message attributes).2 = PubOutcome.returned none ∧
      PubEvent.logException topic_arn
        ∈ (Pubsublib.publish_message_standard_queue fresh_key (Except.error e)
            topic_arn message attributes).1) ∧
    (∀ (fresh_key topic_arn : String) (message : List Nat)
        (gid did : Option String) (attributes : List (String × AttrValue))
        (e : ClientError),
      validate_message_attributes
          (offload_attributes fresh_key message attributes) = true →
      (Pubsublib.publish_message_fifo_queue fresh_key (Except.error e)
           topic_arn message gid did attributes).2 = PubOutcome.returned none ∧
      PubEvent.logException topic_arn
        ∈ (Pubsublib.publish_message_fifo_queue fresh_key (Except.error e)
            topic_arn message gid did attributes).1) := by
  refine ⟨fun md5fn handler deleteRes q e => rfl, ?_, ?_, ?_⟩
  · intro md5fn handler deleteRes q pre m post e hpre hdelpre hm hh hd
    have hnone := poll_loop_no_error md5fn handler deleteRes q pre hpre hdelpre
    have happ := poll_loop_append md5fn handler deleteRes q pre (m :: post) hnone
    have hstop : Pubsublib.poll_loop md5fn handler deleteRes q (m :: post)
        = ([PollEvent.handlerCall m, PollEvent.deleteCall q m.receiptHandle],
           some (PollError.clientError e)) := by
      simp [Pubsublib.poll_loop, hm, hh, hd]
    rw [hstop] at happ
    rw [poll_message_from_queue_ok_some, happ]
    simp
  · intro fresh_key topic_arn message attributes e hval
    unfold Pubsublib.publish_message_standard_queue
    simp [hval]
  · intro fresh_key topic_arn message gid did attributes e hval
    unfold Pubsublib.publish_message_fifo_queue
    simp [hval]

theorem claim_C4_amended_witness :
    Pubsublib.poll_message_from_queue (fun s => s)
        (Except.error (ClientError.mk "boom")) (fun _ => true) (fun _ => none)
        "q"
      = ([PollEvent.logException "q"],
         PollOutcome.raisedClientError (ClientError.mk "boom")) ∧
    Pubsublib.poll_message_from_queue (fun s => s ++ "!")
        (Except.ok (some ([] ++ SqsMessage.mk "i" "r" "b" "b!" :: [])))
        (fun _ => true) (fun _ => some (ClientError.mk "boom")) "q"
      = ((Pubsublib.poll_loop (fun s => s ++ "!") (fun _ => true)
            (fun _ => some (ClientError.mk "boom")) "q" []).1
           ++ [PollEvent.handlerCall (SqsMessage.mk "i" "r" "b" "b!"),
               PollEvent.deleteCall "q"
                 (SqsMessage.mk "i" "r" "b" "b!").receiptHandle,
               PollEvent.logException "q"],
         PollOutcome.raisedClientError (ClientError.mk "boom")) ∧
    ((Pubsublib.publish_message_standard_queue "k"
         (Except.error (ClientError.mk "boom")) "topicA" [1] []).2
       = PubOutcome.returned none ∧
     PubEvent.logException "topicA"
       ∈ (Pubsublib.publish_message_standard_queue "k"
           (Except.error (ClientError.mk "boom")) "topicA" [1] []).1) ∧
    ((Pubsublib.publish_message_fifo_queue "k"
         (Except.error (ClientError.mk "boom")) "topicA" [1] none none []).2
       = PubOutcome.returned none ∧
     PubEvent.logException "topicA"
       ∈ (Pubsublib.publish_message_fifo_queue "k"
           (Except.error (ClientError.mk "boom")) "topicA" [1] none none []).1) :=
  ⟨claim_C4_amended.1 (fun s => s) (fun _ => true) (fun _ => none) "q"
      (ClientError.mk "boom"),
   claim_C4_amended.2.1 (fun s => s ++ "!") (fun _ => true)
      (fun _ => some (ClientError.mk "boom")) "q" []
      (SqsMessage.mk "i" "r" "b" "b!") [] (ClientError.mk "boom") (by decide)
      (by decide) (by decide) rfl rfl,
   claim_C4_amended.2.2.1 "k" "topicA" [1] [] (ClientError.mk "boom")
      (by decide),
   claim_C4_amended.2.2.2 "k" "topicA" [1] none none [] (ClientError.mk "boom")
      (by decide)⟩

/-- C5: on every `pubsublib` publish path, a body strictly larger than 200 KB
triggers the offload — the cache `set` is called exactly once, with the
freshly generated key, the original body as value and TTL `10*24*60 = 14400`
minutes, and the key is injected into the attribute mapping under the
reserved key `redis_key` (the mapping then passed to validation) — while a
body of 200 KB or less triggers no cache `set` and leaves the attribute
mapping unchanged. -/
theorem claim_C5_offload_threshold (fresh_key : String)
    (snsResult : Except ClientError String) (topic_arn : String)
    (message : List Nat) (attributes : List (String × AttrValue))
    ( is_fifo : Bool) (gid did : Option String) :
    (200 * 1024 < message.length →
      (Pubsublib.publish_message fresh_key snsResult topic_arn message
          attributes is_fifo gid did).1.filter isCacheSetEvent
        = [PubEvent.cacheSet fresh_key message (10 * 24 * 60)] ∧
      ("redis_key", AttrValue.str fresh_key)
        ∈ offload_attributes fresh_key message attributes ∧
      PubEvent.validateCall (offload_attributes fresh_key message attributes)
        ∈ (Pubsublib.publish_message fresh_key snsResult topic_arn message
            attributes is_fifo gid did).1) ∧
    (message.length ≤ 200 * 1024 →
      (Pubsublib.publish_message fresh_key snsResult topic_arn message
          attributes is_fifo gid did).1.filter isCacheSetEvent = [] ∧
      offload_attributes fresh_key message attributes = attributes) := by
  constructor
  · intro hlarge
    have hl : is_large_message message = true := by
      simpa [is_large_message] using hlarge
    refine ⟨?_, ?_,
      publish_message_validate_mem fresh_key snsResult topic_arn message
        attributes is_fifo gid did⟩
    · rw [publish_message_filter_cacheSet]
      simp [offload_events, hl]
    · have hoa : offload_attributes fresh_key message attributes
          = dictSet attributes "redis_key" (AttrValue.str fresh_key) := by
        simp [offload_attributes, hl]
      rw [hoa]
      exact dictSet_mem_self attributes "redis_key" (AttrValue.str fresh_key)
  · intro hsmall
    have hl : is_large_message message = false := by
      simp [is_large_message]
      omega
    constructor
    · rw [publish_message_filter_cacheSet]
      simp [offload_events, hl]
    · simp [offload_attributes, hl]

theorem claim_C5_offload_threshold_witness :
    ((Pubsublib.publish_message "k" (Except.ok "mid") "t"
        (List.replicate (200 * 1024 + 1) 0) [] false none none).1.filter
        isCacheSetEvent
      = [PubEvent.cacheSet "k" (List.replicate (200 * 1024 + 1) 0)
          (10 * 24 * 60)] ∧
     ("redis_key", AttrValue.str "k")
       ∈ offload_attributes "k" (List.replicate (200 * 1024 + 1) 0) [] ∧
     PubEvent.validateCall
         (offload_attributes "k" (List.replicate (200 * 1024 + 1) 0) [])
       ∈ (Pubsublib.publish_message "k" (Except.ok "mid") "t"
           (List.replicate (200 * 1024 + 1) 0) [] false none none).1) ∧
    ((Pubsublib.publish_message "k" (Except.ok "mid") "t"
        (List.replicate (200 * 1024) 0) [] false none none).1.filter
        isCacheSetEvent = [] ∧
     offload_attributes "k" (List.replicate (200 * 1024) 0) [] = []) :=
  ⟨(claim_C5_offload_threshold "k" (Except.ok "mid") "t"
      (List.replicate (200 * 1024 + 1) 0) [] false none none).1
      (by rw [List.length_replicate]; omega),
   (claim_C5_offload_threshold "k" (Except.ok "mid") "t"
      (List.replicate (200 * 1024) 0) [] false none none).2
      (by rw [List.length_replicate])⟩

/-- C6: on every `pubsublib` publish path where the offload is triggered,
any dispatch to the transport carries the unchanged original body inline —
the offload is additive metadata only, never a body replacement. -/
theorem claim_C6_inline_body_unchanged (fresh_key : String)
    (snsResult : Except ClientError String) (topic_arn : String)
    (message : List Nat) (attributes : List (String × AttrValue))
    ( is_fifo : Bool) (gid did : Option String)
    (hlarge : 200 * 1024 < message.length) :
    (Pubsublib.publish_message fresh_key snsResult topic_arn message attributes
        is_fifo gid did).1.all (snsBodyIs message) = true := by
  unfold Pubsublib.publish_message Pubsublib.publish_message_standard_queue
    Pubsublib.publish_message_fifo_queue
  cases is_fifo <;>
    by_cases hl : is_large_message message = true <;>
    by_cases hv : validate_message_attributes
        (offload_attributes fresh_key message attributes) = true <;>
    cases snsResult <;>
      simp [hl, hv, snsBodyIs, offload_events]

theorem claim_C6_inline_body_unchanged_witness :
    (Pubsublib.publish_message "k" (Except.ok "mid") "t"
        (List.replicate (200 * 1024 + 1) 0) [] false none none).1.all
        (snsBodyIs (List.replicate (200 * 1024 + 1) 0)) = true :=
  claim_C6_inline_body_unchanged "k" (Except.ok "mid") "t"
    (List.replicate (200 * 1024 + 1) 0) [] false none none
    (by rw [List.length_replicate]; omega)
